import Mathlib

/-!
# Verification of the sage-explorer widget glue

Shallow embedding of the sources of the `sage-explorer` repository:

* `src/unnamed/part_003` — the TypeScript widget: `ExplorableValueModel`
  (a `defaults()` override adding routing constants and the default
  `value` attribute) and `ExplorableValueView` (a `render` that adds a
  CSS class, an `events()` map binding `click`, and a `_handle_click`
  that calls `preventDefault()` and sends `{event: 'click'}`).
* `src/TestPage.js` — `NavHTMLModel` / `NavHTMLView`, whose click
  handler reads `selected_link` and then negates the *undeclared*
  identifier `value`.
* The shared-model synchronization contract of the specification
  (`get` / `set` / `attach` / `detach` with validation, origin-tagged
  synchronous notification and per-view render snapshots), modelled
  from the spec where the host widget framework is not in the sources.
-/

namespace SageExplorer

/-- JavaScript-level values stored in a model attribute bag:
`undefined`, booleans and strings.  (`undefined` is what Backbone's
`model.get` yields on an absent attribute.) -/
inductive Value where
  | undefined : Value
  | bool (b : Bool) : Value
  | str (s : String) : Value
  deriving DecidableEq, Repr

/-- JavaScript truthiness of a `Value` (for the `!` operator). -/
def truthy : Value → Bool
  | .undefined => false
  | .bool b => b
  | .str s => decide (s ≠ "")

/-- JavaScript logical negation `!v`: always returns a boolean. -/
def jsNot (v : Value) : Value := .bool (!truthy v)

/-! ## `ExplorableValueModel.defaults` (src/unnamed/part_003, lines 20–43)

`MODULE_NAME` and `MODULE_VERSION` are imported from `./version`, which
is not among the sources; they are taken as parameters.  The attribute
bag is a finite map represented as a function `String → Option Value`;
the object spread `{...super.defaults(), k₁: v₁, …}` makes the listed
keys override the superclass bag. -/

/-- Static field `ExplorableValueModel.model_name`. -/
def ExplorableValueModel.model_name : String := "ExplorableValueModel"

/-- Static field `ExplorableValueModel.view_name`. -/
def ExplorableValueModel.view_name : String := "ExplorableValueView"

/-- Embeds `ExplorableValueModel.defaults()`: the superclass bag extended with
the six routing constants and `value: 'Hello World'`. -/
def ExplorableValueModel.defaults (MODULE_NAME MODULE_VERSION : String)
    (base : String → Option Value) : String → Option Value := fun k =>
  if k = "_model_name" then some (.str ExplorableValueModel.model_name)
  else if k = "_model_module" then some (.str MODULE_NAME)
  else if k = "_model_module_version" then some (.str MODULE_VERSION)
  else if k = "_view_name" then some (.str ExplorableValueModel.view_name)
  else if k = "_view_module" then some (.str MODULE_NAME)
  else if k = "_view_module_version" then some (.str MODULE_VERSION)
  else if k = "value" then some (.str "Hello World")
  else base k

/-- The keys that `ExplorableValueModel.defaults` overrides in the
superclass bag. -/
def ExplorableValueModel.overriddenKeys : List String :=
  ["_model_name", "_model_module", "_model_module_version",
   "_view_name", "_view_module", "_view_module_version", "value"]

/-! ## Click handlers

A handler is embedded as a state transformer that also emits the trace
of host-visible actions it performs, in order: suppressing the event's
default action, sending a comm message, reading or writing a model
attribute, calling `touch()`. -/

/-- The single comm message shape the widget ever sends:
`{event: 'click'}`. -/
inductive Msg where
  | click : Msg
  deriving DecidableEq, Repr

/-- Host-visible actions a view handler can perform. -/
inductive Action where
  | preventDefault : Action
  | send (m : Msg) : Action
  | modelGet (attr : String) : Action
  | modelSet (attr : String) (v : Value) : Action
  | touch : Action
  deriving DecidableEq, Repr

/-- The state a click handler can touch: the event's
`defaultPrevented` flag, the attributes of `this.model`
(`String → Value`, absent attributes being `undefined`), and the
sequence of comm messages sent so far. -/
structure WidgetState where
  eventDefaultPrevented : Bool
  model : String → Value
  sent : List Msg

/-- Embeds `ExplorableValueView._handle_click` (src/unnamed/part_003,
lines 62–65):

    event.preventDefault();
    this.send({event: 'click'});
-/
def ExplorableValueView.handle_click (s : WidgetState) :
    WidgetState × List Action :=
  let s1 := { s with eventDefaultPrevented := true }
  let s2 := { s1 with sent := s1.sent ++ [Msg.click] }
  (s2, [Action.preventDefault, Action.send Msg.click])

/-- Embeds `ExplorableValueView.events()` (src/unnamed/part_003,
lines 55–57): `{'click': '_handle_click'}`. -/
def ExplorableValueView.events : List (String × String) :=
  [("click", "_handle_click")]

/-- Embeds `NavHTMLView.events()` (src/TestPage.js, lines 23–28):
`{'click': '_handle_click'}`. -/
def NavHTMLView.events : List (String × String) :=
  [("click", "_handle_click")]

/-- The host's event dispatch over a string-keyed handler map: the
handler bound to an incoming event kind, if any.  An event kind with no
entry in the map reaches no handler of the view. -/
def dispatchHandler (evmap : List (String × String)) (kind : String) :
    Option String :=
  (evmap.find? (fun p => p.1 = kind)).map (fun p => p.2)

/-! ## `ExplorableValueView.render` (src/unnamed/part_003, lines 50–53)

    render() {
        super.render();
        this.content.classList.add('sage-explorable');
    }

`super.render()` is the host `HTMLView`'s render, not in the sources;
it is modelled from the spec as pulling the model's current state and
projecting it into the surface, the projection being an arbitrary
parameter. -/

/-- The rendering surface: the projected content and the element's
class list. -/
structure RenderSurface where
  content : String
  classes : List String
  deriving DecidableEq, Repr

/-- Embeds `classList.add`: appends the class unless already present
(DOM class lists are sets). -/
def classListAdd (cs : List String) (c : String) : List String :=
  if c ∈ cs then cs else cs ++ [c]

/-- Modelled from the spec: `super.render()` of the host `HTMLView`
(not in the sources) "pulls the model's current state via `get`,
projects it into the rendering surface"; `proj` is the host's
projection of the model state. -/
def superRender (proj : (String → Value) → String)
    (model : String → Value) (s : RenderSurface) : RenderSurface :=
  { s with content := proj model }

/-- Embeds `ExplorableValueView.render()`: `super.render()` followed by
`this.content.classList.add('sage-explorable')`. -/
def ExplorableValueView.render (proj : (String → Value) → String)
    (model : String → Value) (s : RenderSurface) : RenderSurface :=
  let s1 := superRender proj model s
  { s1 with classes := classListAdd s1.classes "sage-explorable" }

/-! ## `NavHTMLView._handle_click` (src/TestPage.js, lines 35–40)

    event.preventDefault();
    var selected_link = this.model.get('selected_link');
    this.model.set('selected_link', !value, { updated_view: this });
    this.touch();

The identifier `value` is never declared in the handler (its scope
holds only the parameter `event` and the local `selected_link`), so
JavaScript identifier resolution throws a `ReferenceError` when the
argument `!value` is evaluated, before `model.set` is reached. -/

/-- A JavaScript runtime error. -/
inductive JsError where
  | referenceError (name : String) : JsError
  deriving DecidableEq, Repr

/-- JavaScript identifier resolution: look a name up among the
value-holding locals in scope; an unbound name throws
`ReferenceError`. -/
def scopeLookup (locals : List (String × Value)) (x : String) :
    Except JsError Value :=
  match locals.find? (fun p => p.1 = x) with
  | some p => .ok p.2
  | none => .error (.referenceError x)

/-- The state `NavHTMLView._handle_click` can touch. -/
structure NavState where
  eventDefaultPrevented : Bool
  model : String → Value
  touched : Bool

/-- Embeds `NavHTMLView._handle_click` statement by statement.  The
value-holding locals in scope when `!value` is evaluated are exactly
`selected_link`; resolving `value` consults that scope. -/
def NavHTMLView.handle_click (s : NavState) :
    Except JsError NavState × List Action :=
  let s1 := { s with eventDefaultPrevented := true }
  let selected_link := s1.model "selected_link"
  let locals := [("selected_link", selected_link)]
  match scopeLookup locals "value" with
  | .error e =>
      (.error e, [Action.preventDefault, Action.modelGet "selected_link"])
  | .ok v =>
      let s2 := { s1 with
        model := fun a =>
          if a = "selected_link" then jsNot v else s1.model a }
      (.ok { s2 with touched := true },
       [Action.preventDefault, Action.modelGet "selected_link",
        Action.modelSet "selected_link" (jsNot v), Action.touch])

/-- A concrete pre-click state for `NavHTMLView`: `selected_link` is
`false`, nothing sent, nothing touched. -/
def navInit : NavState :=
  { eventDefaultPrevented := false
    model := fun a => if a = "selected_link" then .bool false else .undefined
    touched := false }

/-! ## The shared-model synchronization contract (spec §3–§5, §7, §8)

Modelled from the spec: the host widget framework's Model base class is
not among the sources; the state machine below follows the spec's words.
`set` validates the attribute name against the declared schema
(`SchemaViolation` on an unknown name) and the value against the
attribute's declared domain (`ValidationError`, leaving prior state
unchanged, on a value outside it); on success it commits the value and
synchronously notifies every attached view in attachment order, each
view re-rendering its snapshot from the committed state.  `attach` is
idempotent and renders the new view once; `detach` unregisters the
view, a notification never reaching a detached view (silently dropped,
never an error). -/

/-- Errors of `set` (spec §4.1 / §7). -/
inductive SetError where
  | schemaViolation : SetError
  | validationError : SetError
  deriving DecidableEq, Repr

/-- An attached view: its identity and its last-rendered snapshot of
the model's committed attribute bag. -/
structure MView where
  id : Nat
  lastRendered : List (String × Value)
  deriving DecidableEq, Repr

/-- Modelled from the spec: the shared Model together with its attached
views.  `schema` maps each declared attribute name to its declared
domain; `attrs` is the committed attribute bag; `views` is the
notification list in attachment order; `log` records every delivered
`onModelChanged` invocation as `(view id, attribute, new value)`. -/
structure MState where
  schema : String → Option (List Value)
  attrs : List (String × Value)
  views : List MView
  log : List (Nat × String × Value)

/-- Reads (`get`) an attribute of the committed attribute bag. -/
def getAttr (attrs : List (String × Value)) (a : String) : Option Value :=
  (attrs.find? (fun p => p.1 = a)).map (fun p => p.2)

/-- Commit a value into the attribute bag. -/
def putAttr (attrs : List (String × Value)) (a : String) (v : Value) :
    List (String × Value) :=
  if attrs.any (fun p => p.1 = a) then
    attrs.map (fun p => if p.1 = a then (a, v) else p)
  else attrs ++ [(a, v)]

/-- Modelled from the spec: `set(attribute, newValue, origin?)` of the
host Model base class (not in the sources):
validate the name against the schema, the value against the declared
domain; on success commit, then synchronously notify every attached
view (each re-renders its snapshot from the committed bag) and log the
deliveries; on failure return the error with every component of the
state unchanged. -/
def Model.setOp (s : MState) (attr : String) (v : Value) :
    MState × Option SetError :=
  match s.schema attr with
  | none => (s, some .schemaViolation)
  | some dom =>
    if v ∈ dom then
      let attrs1 := putAttr s.attrs attr v
      ({ s with
          attrs := attrs1
          views := s.views.map (fun w => { w with lastRendered := attrs1 })
          log := s.log ++ s.views.map (fun w => (w.id, attr, v)) },
       none)
    else (s, some .validationError)

/-- The operations a driver can interleave on one model
(spec §8, property 1). -/
inductive Op where
  | set (attr : String) (v : Value) (origin : Option Nat) : Op
  | attach (vid : Nat) : Op
  | detach (vid : Nat) : Op
  deriving DecidableEq, Repr

/-- One step of the synchronization state machine.  `attach` is
idempotent and renders the newly attached view once from the committed
state; `detach` of an unknown view is a no-op. -/
def step (s : MState) : Op → MState
  | .set attr v _ => (Model.setOp s attr v).1
  | .attach vid =>
      if s.views.any (fun w => w.id = vid) then s
      else { s with views := s.views ++ [⟨vid, s.attrs⟩] }
  | .detach vid =>
      { s with views := s.views.filter (fun w => w.id ≠ vid) }

/-- Run a sequence of operations. -/
def run (s : MState) (ops : List Op) : MState := ops.foldl step s

/-- The initial model: a declared schema, an initial committed bag, no
attached view, nothing delivered. -/
def MState.init (schema : String → Option (List Value))
    (attrs : List (String × Value)) : MState :=
  { schema := schema, attrs := attrs, views := [], log := [] }

/-- The consistency invariant (spec §3): every attached view's
last-rendered snapshot is the committed attribute bag. -/
def Consistent (s : MState) : Prop :=
  ∀ w ∈ s.views, w.lastRendered = s.attrs

/-- The view ids currently attached. -/
def attachedIds (s : MState) : List Nat := s.views.map (fun w => w.id)

/-- The `onModelChanged` deliveries performed while running `ops` from
`s` (the log grows by appending, so these are the entries beyond the
starting log). -/
def newDeliveries (s : MState) (ops : List Op) : List (Nat × String × Value) :=
  (run s ops).log.drop s.log.length

/-- A concrete schema for examples: `selected_link` is boolean-valued. -/
def boolSchema : String → Option (List Value) := fun a =>
  if a = "selected_link" then some [.bool false, .bool true] else none

/-- A concrete pre-click state for `ExplorableValueView`. -/
def wInit : WidgetState :=
  { eventDefaultPrevented := false
    model := fun a => if a = "value" then .str "Hello World" else .undefined
    sent := [] }

/-! ## Helper lemmas -/

/-- Adding a class twice is the same as adding it once. -/
theorem classListAdd_idem (cs : List String) (c : String) :
    classListAdd (classListAdd cs c) c = classListAdd cs c := by
  by_cases h : c ∈ cs
  · simp [classListAdd, h]
  · simp [classListAdd, h]

/-- One step preserves the consistency invariant. -/
theorem consistent_step (s : MState) (op : Op) (h : Consistent s) :
    Consistent (step s op) := by
  cases op with
  | set attr v origin =>
      simp only [step]
      unfold Model.setOp
      split
      · exact h
      · split
        · intro w hw
          simp only [List.mem_map] at hw
          obtain ⟨w0, _, rfl⟩ := hw
          rfl
        · exact h
  | attach vid =>
      simp only [step]
      split
      · exact h
      · intro w hw
        rcases List.mem_append.mp hw with hw1 | hw1
        · exact h w hw1
        · rcases List.mem_singleton.mp hw1 with rfl
          rfl
  | detach vid =>
      simp only [step]
      intro w hw
      exact h w (List.mem_of_mem_filter hw)

/-- Any run from a consistent state stays consistent. -/
theorem consistent_run (ops : List Op) (s : MState) (h : Consistent s) :
    Consistent (run s ops) := by
  induction ops generalizing s with
  | nil => exact h
  | cons op ops ih => exact ih (step s op) (consistent_step s op h)

/-- One step appends to the log, and every appended delivery targets a
view attached before the step. -/
theorem step_log_prefix (s : MState) (op : Op) :
    ∃ t, (step s op).log = s.log ++ t ∧ ∀ e ∈ t, e.1 ∈ attachedIds s := by
  cases op with
  | set attr v origin =>
      simp only [step]
      unfold Model.setOp
      split
      · exact ⟨[], by simp⟩
      · split
        · refine ⟨s.views.map (fun w => (w.id, attr, v)), by simp, ?_⟩
          intro e he
          simp only [List.mem_map] at he
          obtain ⟨w0, hw0, rfl⟩ := he
          exact List.mem_map.mpr ⟨w0, hw0, rfl⟩
        · exact ⟨[], by simp⟩
  | attach vid =>
      simp only [step]
      split
      · exact ⟨[], by simp⟩
      · exact ⟨[], by simp⟩
  | detach vid => exact ⟨[], by simp [step]⟩

/-- A run only ever appends to the log. -/
theorem run_log_split (ops : List Op) (s : MState) :
    ∃ t, (run s ops).log = s.log ++ t := by
  induction ops generalizing s with
  | nil => exact ⟨[], by simp [run]⟩
  | cons op ops ih =>
      obtain ⟨t1, ht1, _⟩ := step_log_prefix s op
      obtain ⟨t2, ht2⟩ := ih (step s op)
      refine ⟨t1 ++ t2, ?_⟩
      have hr : run s (op :: ops) = run (step s op) ops := rfl
      rw [hr, ht2, ht1, List.append_assoc]

/-- A view that is not attached stays unattached across any step other
than its own `attach`. -/
theorem not_attached_step (s : MState) (op : Op) (V : Nat)
    (h : V ∉ attachedIds s) (hop : op ≠ Op.attach V) :
    V ∉ attachedIds (step s op) := by
  cases op with
  | set attr v origin =>
      simp only [step]
      unfold Model.setOp
      split
      · exact h
      · split
        · intro hmem
          apply h
          simp only [attachedIds, List.map_map, List.mem_map] at hmem
          obtain ⟨w0, hw0, hid⟩ := hmem
          exact List.mem_map.mpr ⟨w0, hw0, hid⟩
        · exact h
  | attach vid =>
      simp only [step]
      split
      · exact h
      · intro hmem
        simp only [attachedIds, List.map_append, List.mem_append,
          List.map_cons, List.map_nil, List.mem_singleton] at hmem
        rcases hmem with hmem | rfl
        · exact h hmem
        · exact hop rfl
  | detach vid =>
      simp only [step]
      intro hmem
      simp only [attachedIds, List.mem_map, List.mem_filter] at hmem
      obtain ⟨w0, ⟨hw0, _⟩, hid⟩ := hmem
      exact h (List.mem_map.mpr ⟨w0, hw0, hid⟩)

/-- Core of the detach guarantee: from a state where `V` is not
attached, a run that never attaches `V` keeps `V` unattached and
delivers no notification to `V`. -/
theorem run_log_fresh (ops : List Op) (s : MState) (V : Nat)
    (h : V ∉ attachedIds s) (hops : Op.attach V ∉ ops) :
    V ∉ attachedIds (run s ops) ∧
      ∀ e ∈ newDeliveries s ops, e.1 ≠ V := by
  induction ops generalizing s with
  | nil =>
      refine ⟨h, ?_⟩
      intro e he
      simp [newDeliveries, run] at he
  | cons op ops ih =>
      have hop : op ≠ Op.attach V := by
        intro heq
        exact hops (heq ▸ List.mem_cons_self op ops)
      have hops2 : Op.attach V ∉ ops := fun hm => hops (List.mem_cons_of_mem op hm)
      have h1 : V ∉ attachedIds (step s op) := not_attached_step s op V h hop
      obtain ⟨hid, hdel⟩ := ih (step s op) h1 hops2
      have hrun : run s (op :: ops) = run (step s op) ops := rfl
      refine ⟨hrun ▸ hid, ?_⟩
      intro e he
      obtain ⟨t1, ht1, ht1mem⟩ := step_log_prefix s op
      obtain ⟨t2, ht2⟩ := run_log_split ops (step s op)
      have hlog : (run s (op :: ops)).log = s.log ++ (t1 ++ t2) := by
        rw [hrun, ht2, ht1, List.append_assoc]
      have hdrop : newDeliveries s (op :: ops) = t1 ++ t2 := by
        simp [newDeliveries, hlog, List.drop_left]
      rw [hdrop] at he
      rcases List.mem_append.mp he with he1 | he2
      · intro heq
        exact h (heq ▸ ht1mem e he1)
      · apply hdel
        have hnd : newDeliveries (step s op) ops = t2 := by
          simp [newDeliveries, ht2, List.drop_left]
        rw [hnd]
        exact he2

/-! ## Claim theorems -/

/-- C1.  The claim says `NavHTMLView._handle_click` reads the model's
current `selected_link` value `b` and then calls `set` with `!b` and an
origin annotation.  The code instead negates the undeclared identifier
`value`: on every click — in particular from the concrete state
`navInit` where `selected_link` is `false` — the handler suppresses the
default action, reads `selected_link`, then throws
`ReferenceError: value` before any `model.set` is reached, so no
`Action.modelSet` ever appears in its trace. -/
theorem navhtml_click_references_undeclared_value :
    NavHTMLView.handle_click navInit =
      (Except.error (JsError.referenceError "value"),
       [Action.preventDefault, Action.modelGet "selected_link"])
    ∧ ∀ s : NavState, NavHTMLView.handle_click s =
      (Except.error (JsError.referenceError "value"),
       [Action.preventDefault, Action.modelGet "selected_link"]) :=
  ⟨rfl, fun _ => rfl⟩

/-- C2.  Modelled from the spec: a `set` with a value outside the
attribute's declared domain fails with `ValidationError` and leaves the
model's state unchanged — every attribute reads back its pre-call
value, and in fact the whole state (attribute bag, views, log) is the
pre-call state. -/
theorem set_invalid_value_validation_error_no_commit
    (s : MState) (attr : String) (v : Value) (dom : List Value)
    (hs : s.schema attr = some dom) (hv : v ∉ dom) :
    (Model.setOp s attr v).2 = some SetError.validationError
    ∧ (∀ a, getAttr (Model.setOp s attr v).1.attrs a = getAttr s.attrs a)
    ∧ (Model.setOp s attr v).1 = s := by
  unfold Model.setOp
  rw [hs]
  simp [hv]

/-- Witness for C2 at a concrete input: setting `selected_link` to the
string `"nope"` (outside its boolean domain) is rejected with
`ValidationError` and `get` afterward returns the pre-call value. -/
theorem set_invalid_value_validation_error_no_commit_witness :
    (Model.setOp (MState.init boolSchema [("selected_link", Value.bool false)])
        "selected_link" (Value.str "nope")).2 = some SetError.validationError
    ∧ getAttr (Model.setOp (MState.init boolSchema
        [("selected_link", Value.bool false)])
        "selected_link" (Value.str "nope")).1.attrs "selected_link" =
      getAttr [("selected_link", Value.bool false)] "selected_link" :=
  ⟨(set_invalid_value_validation_error_no_commit
      (MState.init boolSchema [("selected_link", Value.bool false)])
      "selected_link" (Value.str "nope") [Value.bool false, Value.bool true]
      rfl (by decide)).1,
   (set_invalid_value_validation_error_no_commit
      (MState.init boolSchema [("selected_link", Value.bool false)])
      "selected_link" (Value.str "nope") [Value.bool false, Value.bool true]
      rfl (by decide)).2.1 "selected_link"⟩

/-- C3.  Modelled from the spec: after any sequence of `set` calls
interleaved with `attach` and `detach` (renders being synchronous, so
all pending renders have run at the end of each step), every
still-attached view's last-rendered snapshot equals the model's current
committed state, and no reachable state shows different committed
values to two attached views. -/
theorem attached_views_consistent (schema : String → Option (List Value))
    (a0 : List (String × Value)) (ops : List Op) :
    Consistent (run (MState.init schema a0) ops)
    ∧ ∀ w1 ∈ (run (MState.init schema a0) ops).views,
      ∀ w2 ∈ (run (MState.init schema a0) ops).views,
        w1.lastRendered = w2.lastRendered := by
  have h : Consistent (run (MState.init schema a0) ops) := by
    apply consistent_run
    intro w hw
    simp [MState.init] at hw
  exact ⟨h, fun w1 h1 w2 h2 => (h w1 h1).trans (h w2 h2).symm⟩

/-- Witness for C3 at a concrete run: attach view 1, commit
`selected_link := true`, attach view 2, and the view attached before
the `set` has re-rendered to the committed bag. -/
theorem attached_views_consistent_witness :
    (⟨1, [("selected_link", Value.bool true)]⟩ : MView).lastRendered =
      (run (MState.init boolSchema [("selected_link", Value.bool false)])
        [Op.attach 1, Op.set "selected_link" (Value.bool true) (some 1),
         Op.attach 2]).attrs :=
  (attached_views_consistent boolSchema [("selected_link", Value.bool false)]
      [Op.attach 1, Op.set "selected_link" (Value.bool true) (some 1),
       Op.attach 2]).1
    ⟨1, [("selected_link", Value.bool true)]⟩ (by decide)

/-- C4.  Modelled from the spec: once `detach(V)` has run, no later
`set` ever invokes `V.onModelChanged` — every notification delivered
after the detach targets a view other than `V` (as long as `V` is not
re-attached); a would-be notification to the detached view is simply
never produced, not raised as an error. -/
theorem detach_stops_notifications (s0 : MState) (ops1 ops2 : List Op)
    (V : Nat) (h : Op.attach V ∉ ops2) :
    ∀ e ∈ newDeliveries (run s0 (ops1 ++ [Op.detach V])) ops2, e.1 ≠ V := by
  have hV : V ∉ attachedIds (run s0 (ops1 ++ [Op.detach V])) := by
    have hr : run s0 (ops1 ++ [Op.detach V]) =
        step (run s0 ops1) (Op.detach V) := by
      simp [run, List.foldl_append]
    rw [hr]
    intro hmem
    simp only [attachedIds, step, List.mem_map, List.mem_filter,
      decide_eq_true_eq] at hmem
    obtain ⟨w0, ⟨_, hne⟩, hid⟩ := hmem
    exact hne hid
  exact (run_log_fresh ops2 (run s0 (ops1 ++ [Op.detach V])) V hV h).2

/-- Witness for C4 at a concrete run: views 1 and 2 attach, view 1
detaches, and a subsequent committed `set` delivers its notification
only to view 2. -/
theorem detach_stops_notifications_witness :
    newDeliveries (run (MState.init boolSchema
        [("selected_link", Value.bool false)])
        ([Op.attach 1, Op.attach 2] ++ [Op.detach 1]))
        [Op.set "selected_link" (Value.bool true) none] =
      [(2, "selected_link", Value.bool true)]
    ∧ (2, "selected_link", Value.bool true).1 ≠ 1 :=
  ⟨by decide,
   detach_stops_notifications
     (MState.init boolSchema [("selected_link", Value.bool false)])
     [Op.attach 1, Op.attach 2]
     [Op.set "selected_link" (Value.bool true) none] 1 (by decide)
     (2, "selected_link", Value.bool true) (by decide)⟩

/-- C5.  On every click, `ExplorableValueView._handle_click` first
suppresses the event's default host action and then sends exactly the
message `{event: 'click'}` through the host's messaging primitive,
whatever the model state: its action trace is precisely
`[preventDefault, send click]` and the sent-message list grows by
exactly `click`. -/
theorem explorable_click_prevents_default_and_sends_click
    (s : WidgetState) :
    (ExplorableValueView.handle_click s).1.eventDefaultPrevented = true
    ∧ (ExplorableValueView.handle_click s).1.sent = s.sent ++ [Msg.click]
    ∧ (ExplorableValueView.handle_click s).2 =
      [Action.preventDefault, Action.send Msg.click] :=
  ⟨rfl, rfl, rfl⟩

/-- C6.  `ExplorableValueModel.defaults()` always binds the routing
constants to the declared fixed values: model class name
`ExplorableValueModel`, view class name `ExplorableValueView`, and the
`MODULE_NAME` / `MODULE_VERSION` constants for both the model and the
view module fields — identically for every superclass bag (the
function is pure, so every call agrees). -/
theorem explorable_defaults_routing_constants
    (MN MV : String) (base : String → Option Value) :
    ExplorableValueModel.defaults MN MV base "_model_name" =
      some (Value.str "ExplorableValueModel")
    ∧ ExplorableValueModel.defaults MN MV base "_view_name" =
      some (Value.str "ExplorableValueView")
    ∧ ExplorableValueModel.defaults MN MV base "_model_module" =
      some (Value.str MN)
    ∧ ExplorableValueModel.defaults MN MV base "_view_module" =
      some (Value.str MN)
    ∧ ExplorableValueModel.defaults MN MV base "_model_module_version" =
      some (Value.str MV)
    ∧ ExplorableValueModel.defaults MN MV base "_view_module_version" =
      some (Value.str MV) := by
  refine ⟨rfl, ?_, ?_, ?_, ?_, ?_⟩ <;>
    simp [ExplorableValueModel.defaults, ExplorableValueModel.model_name,
      ExplorableValueModel.view_name]

/-- C7.  `ExplorableValueView.render()` is idempotent: with the model
state unchanged, rendering twice equals rendering once — the projected
content is overwritten with the same projection and
`classList.add('sage-explorable')` is a no-op once the class is
present — for every host projection, model state and starting
surface. -/
theorem explorable_render_idempotent (proj : (String → Value) → String)
    (model : String → Value) (s : RenderSurface) :
    ExplorableValueView.render proj model
        (ExplorableValueView.render proj model s) =
      ExplorableValueView.render proj model s := by
  simp [ExplorableValueView.render, superRender, classListAdd_idem]

/-- C8.  The event maps of both views bind exactly one event kind: the
`click` event to the `_handle_click` handler; the host's dispatch over
that map sends no other event kind to any handler of the view. -/
theorem explorable_events_click_only :
    ExplorableValueView.events = [("click", "_handle_click")]
    ∧ NavHTMLView.events = [("click", "_handle_click")]
    ∧ ∀ kind h, dispatchHandler ExplorableValueView.events kind = some h →
        kind = "click" ∧ h = "_handle_click" := by
  refine ⟨rfl, rfl, ?_⟩
  intro kind h hd
  by_cases hk : kind = "click"
  · subst hk
    refine ⟨rfl, ?_⟩
    simpa [dispatchHandler, ExplorableValueView.events, List.find?] using hd.symm
  · exfalso
    simp [dispatchHandler, ExplorableValueView.events, List.find?,
      Ne.symm hk] at hd

/-- Witness for C8: dispatching a `click` reaches `_handle_click`, and
the theorem applied there yields the binding. -/
theorem explorable_events_click_only_witness :
    dispatchHandler ExplorableValueView.events "click" = some "_handle_click"
    ∧ ("click" = "click" ∧ "_handle_click" = "_handle_click") :=
  ⟨rfl, explorable_events_click_only.2.2 "click" "_handle_click" rfl⟩

/-- C9.  `ExplorableValueModel.defaults()` is the superclass bag
extended with the six routing constants and `value ↦ 'Hello World'`;
every superclass key outside the overridden ones is preserved
unchanged. -/
theorem explorable_defaults_extends_base
    (MN MV : String) (base : String → Option Value) (k : String)
    (hk : k ∉ ExplorableValueModel.overriddenKeys) :
    ExplorableValueModel.defaults MN MV base k = base k
    ∧ ExplorableValueModel.defaults MN MV base "value" =
      some (Value.str "Hello World")
    ∧ ExplorableValueModel.defaults MN MV base "_model_name" =
      some (Value.str "ExplorableValueModel")
    ∧ ExplorableValueModel.defaults MN MV base "_view_name" =
      some (Value.str "ExplorableValueView")
    ∧ ExplorableValueModel.defaults MN MV base "_model_module" =
      some (Value.str MN)
    ∧ ExplorableValueModel.defaults MN MV base "_view_module" =
      some (Value.str MN)
    ∧ ExplorableValueModel.defaults MN MV base "_model_module_version" =
      some (Value.str MV)
    ∧ ExplorableValueModel.defaults MN MV base "_view_module_version" =
      some (Value.str MV) := by
  simp only [ExplorableValueModel.overriddenKeys, List.mem_cons,
    List.mem_singleton, not_or] at hk
  obtain ⟨h1, h2, h3, h4, h5, h6, h7⟩ := hk
  refine ⟨?_, ?_, ?_, ?_, ?_, ?_, ?_, ?_⟩ <;>
    simp [ExplorableValueModel.defaults, ExplorableValueModel.model_name,
      ExplorableValueModel.view_name, h1, h2, h3, h4, h5, h6, h7]

/-- Witness for C9 at a concrete input: an un-overridden key `color`
reads back from the superclass bag. -/
theorem explorable_defaults_extends_base_witness :
    ExplorableValueModel.defaults "new-sage-explorer" "0.1.0"
        (fun _ => some (Value.str "inherited")) "color" =
      (fun (_ : String) => some (Value.str "inherited")) "color"
    ∧ ExplorableValueModel.defaults "new-sage-explorer" "0.1.0"
        (fun _ => some (Value.str "inherited")) "value" =
      some (Value.str "Hello World") :=
  ⟨(explorable_defaults_extends_base "new-sage-explorer" "0.1.0"
      (fun _ => some (Value.str "inherited")) "color" (by decide)).1,
   (explorable_defaults_extends_base "new-sage-explorer" "0.1.0"
      (fun _ => some (Value.str "inherited")) "color" (by decide)).2.1⟩

/-- C10.  `ExplorableValueView._handle_click` never reads or writes a
model attribute: every attribute has the same value after the handler
as before, the trace contains no `modelGet` or `modelSet` action, and
the only effects are suppressing the default action and sending the
click message. -/
theorem explorable_click_frame (s : WidgetState) (a : String) :
    (ExplorableValueView.handle_click s).1.model a = s.model a
    ∧ (ExplorableValueView.handle_click s).2 =
      [Action.preventDefault, Action.send Msg.click]
    ∧ ∀ act ∈ (ExplorableValueView.handle_click s).2,
        (∀ attr, act ≠ Action.modelGet attr)
        ∧ (∀ attr v, act ≠ Action.modelSet attr v) := by
  refine ⟨rfl, rfl, ?_⟩
  intro act hact
  simp only [ExplorableValueView.handle_click, List.mem_cons,
    List.mem_singleton, List.not_mem_nil, or_false] at hact
  rcases hact with rfl | rfl
  · exact ⟨fun attr => by simp, fun attr v => by simp⟩
  · exact ⟨fun attr => by simp, fun attr v => by simp⟩

/-- Witness for C10 at a concrete input: from `wInit`, the handler
leaves the `value` attribute untouched and its `send` action is not a
model write. -/
theorem explorable_click_frame_witness :
    (ExplorableValueView.handle_click wInit).1.model "value" =
      wInit.model "value"
    ∧ Action.send Msg.click ≠
      Action.modelSet "selected_link" (Value.bool true) :=
  ⟨(explorable_click_frame wInit "value").1,
   ((explorable_click_frame wInit "value").2.2 (Action.send Msg.click)
       (by decide)).2 "selected_link" (Value.bool true)⟩

end SageExplorer
